import Mathlib

/-!
Verification development for the WasmTreeDataset RDF frontend.

This file shallowly embeds the Javascript sources of the repository
(src/wasm-tree-frontend/termidmap.js, index.js, alternative.js) into Lean and
proves properties of the embedded operations.  RDF terms are represented by
their canonical concise key (a string): the external graphy term factory is an
opaque canonicalizer whose keys are equal exactly when the terms are equal, so
nothing is lost by identifying a term with its key.  Javascript objects used
as maps and Javascript arrays are represented by association lists of their
filled slots (plus the length property for arrays, which matters because
TermIdMap.duplicate builds sparse arrays).  Object identity of shared interner
references is modelled by an explicit heap (a list of TermIdMap values) with
facades holding indices into it.

The wasm backend (ForestOfIdentifierQuads, package wasm-tree-backend) is part
of the repository but its Rust source is not present; its operations are
modelled from the specification, sections 4.2 and 4.3: a forest is a
duplicate-free collection of identifier quads with pattern matching, insertion,
removal and counting.  Iteration order is irrelevant to everything proved here.
-/

/-- RDF terms, represented by their canonical concise key string produced by
the external graphy term factory. -/
abbrev Term := String

/-- Concise key of the default graph term of the external factory: an opaque
string constant, distinct from every other term key. -/
def defaultGraphConcise : Term := "*"

/-- A quad of RDF terms: subject, predicate, object, graph. -/
abbrev Quad := Term × Term × Term × Term

/-- A quad of interner identifiers. -/
abbrev IdQuad := Nat × Nat × Nat × Nat

/-- A match pattern over terms; none is a wildcard position. -/
abbrev TermPattern := Option Term × Option Term × Option Term × Option Term

/-- A match pattern over identifiers; none is a wildcard position. -/
abbrev IdPattern := Option Nat × Option Nat × Option Nat × Option Nat

/-- Lookup in an association list, newest entry first.  Models reading a
Javascript object property or array slot; the list holds the filled slots,
and overwriting a slot is modelled by consing the new entry in front. -/
def jsGet {α β : Type} [DecidableEq α] (k : α) : List (α × β) → Option β
  | [] => none
  | (a, b) :: rest => if a = k then some b else jsGet k rest

/-- First-occurrence deduplication, keeping track of the values seen so far. -/
def dedupFirstAux (seen : List Nat) : List Nat → List Nat
  | [] => []
  | x :: xs =>
    if x ∈ seen then dedupFirstAux seen xs
    else x :: dedupFirstAux (x :: seen) xs

/-- First-occurrence deduplication of a list, as iterating a Javascript Set
built from the list does. -/
def dedupFirst (l : List Nat) : List Nat :=
  dedupFirstAux [] l

/-- The term interner of src/wasm-tree-frontend/termidmap.js.  The field
identifiersToTerms models the Javascript array (association list of filled
slots), arrayLength its length property, termsToIdentifiers the object mapping
concise keys to identifiers. -/
structure TermIdMap where
  identifiersToTerms : List (Nat × Term)
  arrayLength : Nat
  termsToIdentifiers : List (Term × Nat)
  nextIdentifier : Nat
deriving DecidableEq

/-- The TermIdMap constructor: a fresh interner with the default graph as the
0th term and next identifier 1. -/
def mkTermIdMap : TermIdMap :=
  { identifiersToTerms := [(0, defaultGraphConcise)]
    arrayLength := 1
    termsToIdentifiers := [(defaultGraphConcise, 0)]
    nextIdentifier := 1 }

namespace TermIdMap

/-- getTerm from termidmap.js: the term bound to an identifier, if any. -/
def getTerm (m : TermIdMap) (identifier : Nat) : Option Term :=
  jsGet identifier m.identifiersToTerms

/-- findIdentifier from termidmap.js: the identifier of a term, if mapped. -/
def findIdentifier (m : TermIdMap) (term : Term) : Option Nat :=
  jsGet term m.termsToIdentifiers

/-- findOrBuildIdentifier from termidmap.js: the identifier of the term,
allocating the next identifier when the term is unknown.  The new term is
pushed at index arrayLength, as a Javascript array push does. -/
def findOrBuildIdentifier (m : TermIdMap) (term : Term) : Nat × TermIdMap :=
  match jsGet term m.termsToIdentifiers with
  | some r => (r, m)
  | none =>
    (m.nextIdentifier,
     { identifiersToTerms := (m.arrayLength, term) :: m.identifiersToTerms
       arrayLength := m.arrayLength + 1
       termsToIdentifiers := (term, m.nextIdentifier) :: m.termsToIdentifiers
       nextIdentifier := m.nextIdentifier + 1 })

/-- convertToIdentifierQuad from termidmap.js: intern the four positions of a
quad in order, allocating identifiers for unknown terms. -/
def convertToIdentifierQuad (m : TermIdMap) (q : Quad) : IdQuad × TermIdMap :=
  let r1 := m.findOrBuildIdentifier q.1
  let r2 := r1.2.findOrBuildIdentifier q.2.1
  let r3 := r2.2.findOrBuildIdentifier q.2.2.1
  let r4 := r3.2.findOrBuildIdentifier q.2.2.2
  ((r1.1, r2.1, r3.1, r4.1), r4.2)

/-- tryConvertToIdentifierQuad from termidmap.js: the identifier quad of a
term quad, or none when any of the four terms is unknown. -/
def tryConvertToIdentifierQuad (m : TermIdMap) (q : Quad) : Option IdQuad :=
  match m.findIdentifier q.1, m.findIdentifier q.2.1,
        m.findIdentifier q.2.2.1, m.findIdentifier q.2.2.2 with
  | some s, some p, some o, some g => some (s, p, o, g)
  | _, _, _, _ => none

/-- One position of matchIdentifiers from termidmap.js: a wildcard passes
through, a bound term is lifted to its identifier, and none signals an
unknown bound term. -/
def liftBoundPos (m : TermIdMap) : Option Term → Option (Option Nat)
  | none => some none
  | some t =>
    match m.findIdentifier t with
    | none => none
    | some i => some (some i)

/-- matchIdentifiers from termidmap.js: lift each bound position of a term
pattern to its identifier; none signals that the pattern cannot match because
some bound term is unknown.  Wildcards pass through. -/
def matchIdentifiers (m : TermIdMap) (pat : TermPattern) : Option IdPattern :=
  match m.liftBoundPos pat.1 with
  | none => none
  | some s =>
    match m.liftBoundPos pat.2.1 with
    | none => none
    | some p =>
      match m.liftBoundPos pat.2.2.1 with
      | none => none
      | some o =>
        match m.liftBoundPos pat.2.2.2 with
        | none => none
        | some g => some (s, p, o, g)

/-- One step of TermIdMap.duplicate, processing the deduplicated identifier
list in order.  When the source has no term at the identifier, the Javascript
code assigns the undefined value: the array slot stays observably empty (only
the length property grows) and the object gains the key of the undefined
value, which is not the key of any term, so lookups are unchanged. -/
def dupStep (source : TermIdMap) : TermIdMap → List Nat → TermIdMap
  | self, [] => self
  | self, identifier :: rest =>
    dupStep source
      (match jsGet identifier source.identifiersToTerms with
       | some term =>
         { self with
           termsToIdentifiers := (term, identifier) :: self.termsToIdentifiers
           identifiersToTerms := (identifier, term) :: self.identifiersToTerms
           arrayLength := max self.arrayLength (identifier + 1) }
       | none =>
         { self with arrayLength := max self.arrayLength (identifier + 1) })
      rest

/-- TermIdMap.duplicate from termidmap.js: clone the source keeping only the
identifiers of the list (deduplicated through a Javascript Set), then copy the
next-identifier counter of the source.  The fresh map of the constructor
already holds the default graph at identifier 0. -/
def duplicate (source : TermIdMap) (identifierList : List Nat) : TermIdMap :=
  { dupStep source mkTermIdMap (dedupFirst identifierList) with
    nextIdentifier := source.nextIdentifier }

/-- buildIdentifierListForEquality from termidmap.js: flatten the quads of a
dataset into an identifier list, or none as soon as a quad holds an unknown
term. -/
def buildIdentifierListForEquality (m : TermIdMap) : List Quad → Option (List Nat)
  | [] => some []
  | q :: rest =>
    match m.tryConvertToIdentifierQuad q with
    | none => none
    | some (s, p, o, g) =>
      match m.buildIdentifierListForEquality rest with
      | none => none
      | some l => some (s :: p :: o :: g :: l)

/-- buildIdentifierListForUnion from termidmap.js: flatten the quads of a
dataset into an identifier list, interning unknown terms along the way. -/
def buildIdentifierListForUnion (m : TermIdMap) : List Quad → List Nat × TermIdMap
  | [] => ([], m)
  | q :: rest =>
    let conv := m.convertToIdentifierQuad q
    let tail := conv.2.buildIdentifierListForUnion rest
    (conv.1.1 :: conv.1.2.1 :: conv.1.2.2.1 :: conv.1.2.2.2 :: tail.1, tail.2)

/-- A term of a quad is unknown to the interner (Boolean form used as a
hypothesis in the theorems below). -/
def hasUnknownTerm (m : TermIdMap) (q : Quad) : Bool :=
  (m.findIdentifier q.1).isNone || (m.findIdentifier q.2.1).isNone ||
  (m.findIdentifier q.2.2.1).isNone || (m.findIdentifier q.2.2.2).isNone

/-- A pattern position is bound to a term unknown to the interner. -/
def boundPosUnknown (m : TermIdMap) : Option Term → Bool
  | none => false
  | some t => (m.findIdentifier t).isNone

/-- Some bound position of a term pattern holds a term unknown to the interner
(Boolean form used as a hypothesis in the theorems below). -/
def hasUnknownBoundTerm (m : TermIdMap) (pat : TermPattern) : Bool :=
  m.boundPosUnknown pat.1 || m.boundPosUnknown pat.2.1 ||
  m.boundPosUnknown pat.2.2.1 || m.boundPosUnknown pat.2.2.2

end TermIdMap

/-- Modelled from the spec: the ForestOfIdentifierQuads of the wasm-tree-backend
package is part of the repository but its Rust source is not under src.
Following spec sections 4.2 and 4.3, a forest is a duplicate-free collection of
identifier quads supporting insertion, removal, membership, pattern matching,
counting and bulk loads; the iteration order (the permutation trees) is
irrelevant to the properties proved in this file, so the element collection is
represented as a duplicate-free list. -/
abbrev Forest := List IdQuad

namespace Forest

/-- Modelled from the spec: a freshly constructed forest is empty. -/
def empty : Forest := []

/-- Modelled from the spec: insertion, a no-op when the quad is present. -/
def add (f : Forest) (q : IdQuad) : Forest :=
  if q ∈ f then f else f ++ [q]

/-- Modelled from the spec: removal, a no-op when the quad is absent. -/
def remove (f : Forest) (q : IdQuad) : Forest :=
  f.erase q

/-- Modelled from the spec: membership. -/
def has (f : Forest) (q : IdQuad) : Bool :=
  q ∈ f

/-- Modelled from the spec: number of quads. -/
def size (f : Forest) : Nat :=
  f.length

/-- Modelled from the spec: one position of an identifier quad matches a
pattern position when the position is a wildcard or holds the same
identifier. -/
def posMatches : Option Nat → Nat → Bool
  | none, _ => true
  | some x, y => x == y

/-- Modelled from the spec: an identifier quad matches an identifier pattern
componentwise. -/
def quadMatches (pat : IdPattern) (q : IdQuad) : Bool :=
  posMatches pat.1 q.1 && posMatches pat.2.1 q.2.1 &&
  posMatches pat.2.2.1 q.2.2.1 && posMatches pat.2.2.2 q.2.2.2

/-- Decompose a flat identifier list into identifier quads, four numbers at a
time; a trailing incomplete group is dropped. -/
def chunk4 : List Nat → List IdQuad
  | s :: p :: o :: g :: rest => (s, p, o, g) :: chunk4 rest
  | _ => []

/-- Modelled from the spec: get_all returns the matching quads flattened into
an identifier list. -/
def get_all (f : Forest) (pat : IdPattern) : List Nat :=
  (f.filter (quadMatches pat)).foldr
    (fun q acc => q.1 :: q.2.1 :: q.2.2.1 :: q.2.2.2 :: acc) []

/-- Modelled from the spec: matchCount returns the number of matching quads. -/
def matchCount (f : Forest) (pat : IdPattern) : Nat :=
  (f.filter (quadMatches pat)).length

/-- Modelled from the spec: deleteMatches removes every matching quad. -/
def deleteMatches (f : Forest) (pat : IdPattern) : Forest :=
  f.filter (fun q => !quadMatches pat q)

/-- Modelled from the spec: bulk insertion of a flat identifier list into an
existing forest, deduplicating. -/
def insertFromIdentifierList (f : Forest) (l : List Nat) : Forest :=
  (chunk4 l).foldl add f

/-- Modelled from the spec: fromIdentifierList builds a forest from a flat
identifier list, deduplicating. -/
def fromIdentifierList (l : List Nat) : Forest :=
  insertFromIdentifierList empty l

/-- Modelled from the spec: containment of the quads of a flat identifier
list. -/
def containsIdentifierList (f : Forest) (l : List Nat) : Bool :=
  (chunk4 l).all (fun q => q ∈ f)

/-- Modelled from the spec: set equality with the quads of a flat identifier
list. -/
def equalsIdentifierList (f : Forest) (l : List Nat) : Bool :=
  containsIdentifierList f l && f.all (fun q => q ∈ chunk4 l)

end Forest

/-- The heap of live TermIdMap objects; facades hold indices into it, so that
interner sharing by reference is captured faithfully. -/
abbrev World := List TermIdMap

/-- Read a TermIdMap reference; the call sites of the source always read live
references, so the default value is never exercised in the theorems below. -/
def getRef : World → Nat → TermIdMap
  | [], _ => mkTermIdMap
  | m :: _, 0 => m
  | _ :: w, n + 1 => getRef w n

/-- Overwrite a TermIdMap reference in place. -/
def setRef : World → Nat → TermIdMap → World
  | [], _, _ => []
  | _ :: w, 0, m => m :: w
  | x :: w, n + 1, m => x :: setRef w n m

/-- Allocate a fresh TermIdMap object, returning its reference. -/
def allocRef (w : World) (m : TermIdMap) : World × Nat :=
  (w ++ [m], w.length)

/-- The WasmTreeDataset facade of src/wasm-tree-frontend/index.js: a reference
to a (possibly shared) TermIdMap, an optional wasm forest, and an optional
cached identifier sequence. -/
structure WasmTreeDataset where
  termIdMap : Nat
  forest : Option Forest
  identifierList : Option (List Nat)
deriving DecidableEq

namespace WasmTreeDataset

/-- The WasmTreeDataset constructor.  With no TermIdMap argument it builds a
fresh interner and an empty forest; otherwise it stores the given reference
and the optional identifier list and forest (null and undefined both become
none, as in the source). -/
def construct (w : World) (termIdMap : Option Nat)
    (identifierList : Option (List Nat)) (forest : Option Forest) :
    World × WasmTreeDataset :=
  match termIdMap with
  | none =>
    let a := allocRef w mkTermIdMap
    (a.1, ⟨a.2, some Forest.empty, none⟩)
  | some tid => (w, ⟨tid, forest, identifierList⟩)

/-- ensureHasForest from index.js: materialize a forest from the cached
identifier list, or an empty one; the cached list is kept. -/
def ensureHasForest (d : WasmTreeDataset) : WasmTreeDataset :=
  match d.forest with
  | some _ => d
  | none =>
    { d with
      forest := some (match d.identifierList with
        | some l => Forest.fromIdentifierList l
        | none => Forest.empty) }

/-- ensureHasModifiableForest from index.js: materialize a forest and drop the
cached identifier list. -/
def ensureHasModifiableForest (d : WasmTreeDataset) : WasmTreeDataset :=
  { d.ensureHasForest with identifierList := none }

/-- free from index.js: release the forest and the cached list; the interner
is left intact. -/
def free (d : WasmTreeDataset) : WasmTreeDataset :=
  { d with forest := none, identifierList := none }

/-- The size getter from index.js: length of the cached list over four, else
the forest size, else zero. -/
def size (d : WasmTreeDataset) : Nat :=
  match d.identifierList with
  | some l => l.length / 4
  | none =>
    match d.forest with
    | some f => f.size
    | none => 0

/-- add from index.js: force a modifiable forest, intern the quad (growing the
shared interner) and insert it. -/
def add (w : World) (d : WasmTreeDataset) (q : Quad) : World × WasmTreeDataset :=
  let d1 := d.ensureHasModifiableForest
  let m := getRef w d.termIdMap
  let conv := m.convertToIdentifierQuad q
  (setRef w d.termIdMap conv.2,
   { d1 with forest := some ((d1.forest.getD Forest.empty).add conv.1) })

/-- delete from index.js: when the quad is fully known, force a modifiable
forest and remove it; otherwise do nothing. -/
def delete (w : World) (d : WasmTreeDataset) (q : Quad) : World × WasmTreeDataset :=
  let m := getRef w d.termIdMap
  match m.tryConvertToIdentifierQuad q with
  | none => (w, d)
  | some idq =>
    let d1 := d.ensureHasModifiableForest
    (w, { d1 with forest := some ((d1.forest.getD Forest.empty).remove idq) })

/-- has from index.js: false when any term of the quad is unknown; otherwise
materialize a forest (keeping the cached list) and test membership. -/
def has (w : World) (d : WasmTreeDataset) (q : Quad) : Bool × WasmTreeDataset :=
  let m := getRef w d.termIdMap
  match m.tryConvertToIdentifierQuad q with
  | none => (false, d)
  | some idq =>
    let d1 := d.ensureHasForest
    ((d1.forest.getD Forest.empty).has idq, d1)

/-- match from index.js, returning the state of the receiver after the call
and the new facade.  An unsatisfiable pattern yields a fresh facade sharing
the interner reference with neither forest nor list; a satisfiable one yields
a facade holding the resulting identifier sequence and no forest.  The world
is unchanged (the constructor is called with a TermIdMap argument). -/
def dsMatch (w : World) (d : WasmTreeDataset) (pat : TermPattern) :
    WasmTreeDataset × WasmTreeDataset :=
  let m := getRef w d.termIdMap
  match m.matchIdentifiers pat with
  | none => (d, (construct w (some d.termIdMap) none none).2)
  | some ip =>
    let d1 := d.ensureHasForest
    let l := (d1.forest.getD Forest.empty).get_all ip
    (d1, (construct w (some d.termIdMap) (some l) none).2)

/-- deleteMatches from index.js: a no-op returning the receiver when the
pattern has an unknown bound term; otherwise force a modifiable forest and
delete the matching quads. -/
def deleteMatches (w : World) (d : WasmTreeDataset) (pat : TermPattern) :
    WasmTreeDataset :=
  let m := getRef w d.termIdMap
  match m.matchIdentifiers pat with
  | none => d
  | some ip =>
    let d1 := d.ensureHasModifiableForest
    { d1 with forest := some ((d1.forest.getD Forest.empty).deleteMatches ip) }

/-- countQuads from index.js: zero when the facade holds neither forest nor
list; otherwise materialize a forest, then zero for an unsatisfiable pattern
and the match count for a satisfiable one. -/
def countQuads (w : World) (d : WasmTreeDataset) (pat : TermPattern) :
    Nat × WasmTreeDataset :=
  match d.forest, d.identifierList with
  | none, none => (0, d)
  | _, _ =>
    let d1 := d.ensureHasForest
    let m := getRef w d.termIdMap
    match m.matchIdentifiers pat with
    | none => (0, d1)
    | some ip => ((d1.forest.getD Forest.empty).matchCount ip, d1)

/-- asIdentifierList from index.js (the iterator reads the facade through it):
return the cached list if present; otherwise read the forest, caching the
result, or the empty list when the facade holds nothing. -/
def asIdentifierList (d : WasmTreeDataset) : List Nat × WasmTreeDataset :=
  match d.identifierList with
  | some l => (l, d)
  | none =>
    match d.forest with
    | none => ([], d)
    | some f =>
      let l := f.get_all (none, none, none, none)
      (l, { d with identifierList := some l })

/-- addAll from index.js, for a right-hand side that is a plain iterable of
quads (similarity NONE; a facade with a different interner is consumed the
same way, through its quad iterator).  The operation materializes a forest
through ensureHasForest, interns the quads into the shared interner and bulk
inserts them; the cached identifier list is not touched. -/
def addAll (w : World) (d : WasmTreeDataset) (other : List Quad) :
    World × WasmTreeDataset :=
  let d1 := d.ensureHasForest
  let m := getRef w d.termIdMap
  let conv := m.buildIdentifierListForUnion other
  (setRef w d.termIdMap conv.2,
   { d1 with forest := some ((d1.forest.getD Forest.empty).insertFromIdentifierList conv.1) })

/-- contains from index.js, for a right-hand side that is not a same-interner
facade (similarity NONE or SAME_CLASS: the slow path consumes it as an
iterable of quads).  The receiver materializes a forest first; an unknown term
on the right yields false without consulting the forest. -/
def containsIter (w : World) (d : WasmTreeDataset) (other : List Quad) :
    Bool × World × WasmTreeDataset :=
  let d1 := d.ensureHasForest
  let m := getRef w d.termIdMap
  match m.buildIdentifierListForEquality other with
  | none => (false, w, d1)
  | some slice => ((d1.forest.getD Forest.empty).containsIdentifierList slice, w, d1)

/-- equals from index.js, for a right-hand side that is not a same-interner
facade (the slow path, like containsIter). -/
def equalsIter (w : World) (d : WasmTreeDataset) (other : List Quad) :
    Bool × World × WasmTreeDataset :=
  let d1 := d.ensureHasForest
  let m := getRef w d.termIdMap
  match m.buildIdentifierListForEquality other with
  | none => (false, w, d1)
  | some slice => ((d1.forest.getD Forest.empty).equalsIdentifierList slice, w, d1)

end WasmTreeDataset

/-- The AlwaysForestDataset facade of index.js: no identifier-list cache, and
derived facades duplicate a subset of the interner instead of sharing it. -/
structure AlwaysForestDataset where
  termIdMap : Nat
  forest : Option Forest
deriving DecidableEq

namespace AlwaysForestDataset

/-- The AlwaysForestDataset constructor.  With an identifier list it builds
the forest from the list and duplicates the given interner restricted to the
identifiers of the list; without one it builds an empty forest and a fresh
interner.  The source call sites pass a TermIdMap whenever they pass a list,
so the default reference 0 of the embedding is never exercised. -/
def construct (w : World) (termIdMap : Option Nat)
    (identifierList : Option (List Nat)) : World × AlwaysForestDataset :=
  match identifierList with
  | some l =>
    let a := allocRef w (TermIdMap.duplicate (getRef w (termIdMap.getD 0)) l)
    (a.1, ⟨a.2, some (Forest.fromIdentifierList l)⟩)
  | none =>
    let a := allocRef w mkTermIdMap
    (a.1, ⟨a.2, some Forest.empty⟩)

/-- ensureHasForest from index.js for AlwaysForestDataset: materialize an
empty forest after a free. -/
def ensureHasForest (d : AlwaysForestDataset) : AlwaysForestDataset :=
  match d.forest with
  | some _ => d
  | none => { d with forest := some Forest.empty }

/-- The size getter from index.js for AlwaysForestDataset. -/
def size (d : AlwaysForestDataset) : Nat :=
  match d.forest with
  | some f => f.size
  | none => 0

/-- match from index.js for AlwaysForestDataset, returning the world after the
constructor ran, the state of the receiver and the new facade. -/
def dsMatch (w : World) (d : AlwaysForestDataset) (pat : TermPattern) :
    World × AlwaysForestDataset × AlwaysForestDataset :=
  let m := getRef w d.termIdMap
  match m.matchIdentifiers pat with
  | none =>
    let c := construct w (some d.termIdMap) none
    (c.1, d, c.2)
  | some ip =>
    let d1 := d.ensureHasForest
    let l := (d1.forest.getD Forest.empty).get_all ip
    let c := construct w (some d.termIdMap) (some l)
    (c.1, d1, c.2)

end AlwaysForestDataset

/-- The DatasetWithIdentifierList facade of alternative.js: identifier-list
cache, and derived facades duplicate a subset of the interner. -/
structure DatasetWithIdentifierList where
  termIdMap : Nat
  forest : Option Forest
  identifierList : Option (List Nat)
deriving DecidableEq

namespace DatasetWithIdentifierList

/-- The DatasetWithIdentifierList constructor.  With no TermIdMap argument it
builds a fresh interner and an empty forest; otherwise it always duplicates
the given interner restricted to the identifier list (an absent list behaves
as the empty one, since the Javascript Set of undefined is empty). -/
def construct (w : World) (termIdMap : Option Nat)
    (identifierList : Option (List Nat)) (forest : Option Forest) :
    World × DatasetWithIdentifierList :=
  match termIdMap with
  | none =>
    let a := allocRef w mkTermIdMap
    (a.1, ⟨a.2, some Forest.empty, none⟩)
  | some tid =>
    let a := allocRef w (TermIdMap.duplicate (getRef w tid) (identifierList.getD []))
    (a.1, ⟨a.2, forest, identifierList⟩)

/-- ensureHasForest from alternative.js: materialize a forest from the cached
identifier list, or an empty one; the cached list is kept. -/
def ensureHasForest (d : DatasetWithIdentifierList) : DatasetWithIdentifierList :=
  match d.forest with
  | some _ => d
  | none =>
    { d with
      forest := some (match d.identifierList with
        | some l => Forest.fromIdentifierList l
        | none => Forest.empty) }

/-- The size getter from alternative.js for DatasetWithIdentifierList. -/
def size (d : DatasetWithIdentifierList) : Nat :=
  match d.identifierList with
  | some l => l.length / 4
  | none =>
    match d.forest with
    | some f => f.size
    | none => 0

/-- match from alternative.js for DatasetWithIdentifierList, returning the
world after the constructor ran, the state of the receiver and the new
facade. -/
def dsMatch (w : World) (d : DatasetWithIdentifierList) (pat : TermPattern) :
    World × DatasetWithIdentifierList × DatasetWithIdentifierList :=
  let m := getRef w d.termIdMap
  match m.matchIdentifiers pat with
  | none =>
    let c := construct w (some d.termIdMap) none none
    (c.1, d, c.2)
  | some ip =>
    let d1 := d.ensureHasForest
    let l := (d1.forest.getD Forest.empty).get_all ip
    let c := construct w (some d.termIdMap) (some l) none
    (c.1, d1, c.2)

end DatasetWithIdentifierList

/-- The DatasetWithSharedTermIdMap facade of alternative.js: no
identifier-list cache, and derived facades share the interner. -/
structure DatasetWithSharedTermIdMap where
  termIdMap : Nat
  forest : Option Forest
deriving DecidableEq

namespace DatasetWithSharedTermIdMap

/-- The DatasetWithSharedTermIdMap constructor.  With an identifier list it
builds the forest from the list and stores the given interner reference;
without one it builds an empty forest and a fresh interner (this branch runs
even when a TermIdMap argument was passed, as in the source). -/
def construct (w : World) (termIdMap : Option Nat)
    (identifierList : Option (List Nat)) : World × DatasetWithSharedTermIdMap :=
  match identifierList with
  | some l => (w, ⟨termIdMap.getD 0, some (Forest.fromIdentifierList l)⟩)
  | none =>
    let a := allocRef w mkTermIdMap
    (a.1, ⟨a.2, some Forest.empty⟩)

/-- ensureHasForest from alternative.js for DatasetWithSharedTermIdMap. -/
def ensureHasForest (d : DatasetWithSharedTermIdMap) : DatasetWithSharedTermIdMap :=
  match d.forest with
  | some _ => d
  | none => { d with forest := some Forest.empty }

/-- The size getter from alternative.js for DatasetWithSharedTermIdMap. -/
def size (d : DatasetWithSharedTermIdMap) : Nat :=
  match d.forest with
  | some f => f.size
  | none => 0

/-- match from alternative.js for DatasetWithSharedTermIdMap, returning the
world after the constructor ran, the state of the receiver and the new
facade. -/
def dsMatch (w : World) (d : DatasetWithSharedTermIdMap) (pat : TermPattern) :
    World × DatasetWithSharedTermIdMap × DatasetWithSharedTermIdMap :=
  let m := getRef w d.termIdMap
  match m.matchIdentifiers pat with
  | none =>
    let c := construct w (some d.termIdMap) none
    (c.1, d, c.2)
  | some ip =>
    let d1 := d.ensureHasForest
    let l := (d1.forest.getD Forest.empty).get_all ip
    let c := construct w (some d.termIdMap) (some l)
    (c.1, d1, c.2)

end DatasetWithSharedTermIdMap

/-- The WasmTreeStore of index.js: an interner reference and a forest that is
null after free. -/
structure WasmTreeStore where
  termIdMap : Nat
  forest : Option Forest
deriving DecidableEq

/-- An event emitted by a store observer. -/
inductive StoreEvent where
  | endEvent
deriving DecidableEq

/-- The observable behavior of a removeMatches call: the events emitted
synchronously, during the call and hence before any listener the caller
attaches afterwards can see them, and the deferred deletion task passed to
setTimeout, if one was scheduled. -/
structure RemoveMatchesCall where
  syncEvents : List StoreEvent
  deferredTask : Option IdPattern
deriving DecidableEq

namespace WasmTreeStore

/-- removeMatches from index.js: an unsatisfiable pattern emits end
synchronously and schedules nothing; otherwise the deletion is deferred to a
later event-loop turn through asyncCall (setTimeout) and nothing is emitted
synchronously. -/
def removeMatches (w : World) (s : WasmTreeStore) (pat : TermPattern) :
    RemoveMatchesCall :=
  let m := getRef w s.termIdMap
  match m.matchIdentifiers pat with
  | none => ⟨[.endEvent], none⟩
  | some ip => ⟨[], some ip⟩

/-- Run the deferred task of a removeMatches call, if any, on the store state
reached when the event loop schedules it: the matching quads are deleted
unless the store was freed meanwhile (forest null), and end is emitted.  The
events returned are emitted after the caller of removeMatches returned. -/
def runDeferred (s : WasmTreeStore) (c : RemoveMatchesCall) :
    WasmTreeStore × List StoreEvent :=
  match c.deferredTask with
  | none => (s, [])
  | some ip =>
    (match s.forest with
     | none => s
     | some f => { s with forest := some (f.deleteMatches ip) },
     [.endEvent])

end WasmTreeStore

/-- A Javascript value passed to Array.from: either an iterable (an object
with a Symbol.iterator method, yielding quads or null for unmapped
identifiers) or a bare function object, which is not iterable and is consumed
as an array-like through its length property, the number of its declared
parameters. -/
inductive JsArrayFromArg where
  | iterableOf (elements : List (Option Quad))
  | functionObject (declaredParams : Nat)
deriving DecidableEq

/-- Array.from semantics for the two shapes above: an iterable yields its
elements; a function object has no Symbol.iterator, so it is consumed as an
array-like of length equal to its declared parameter count whose slots are
all absent. -/
def jsArrayFrom : JsArrayFromArg → List (Option Quad)
  | .iterableOf l => l
  | .functionObject n => List.replicate n none

/-- The value this bracket Symbol.iterator bracket read on a facade: the
iterator method itself, a function declared with zero parameters, not
invoked. -/
def symbolIteratorMethod : JsArrayFromArg :=
  .functionObject 0

/-- toArray from index.js for WasmTreeDataset: Array.from applied to the
uninvoked iterator method. -/
def WasmTreeDataset.toArray (_ : WasmTreeDataset) : List (Option Quad) :=
  jsArrayFrom symbolIteratorMethod

/-- toArray from index.js for AlwaysForestDataset. -/
def AlwaysForestDataset.toArray (_ : AlwaysForestDataset) : List (Option Quad) :=
  jsArrayFrom symbolIteratorMethod

/-- toArray from alternative.js for DatasetWithIdentifierList. -/
def DatasetWithIdentifierList.toArray (_ : DatasetWithIdentifierList) : List (Option Quad) :=
  jsArrayFrom symbolIteratorMethod

/-- toArray from alternative.js for DatasetWithSharedTermIdMap. -/
def DatasetWithSharedTermIdMap.toArray (_ : DatasetWithSharedTermIdMap) :
    List (Option Quad) :=
  jsArrayFrom symbolIteratorMethod

/-! Basic lemmas about the interner operations. -/

namespace TermIdMap

/-- After interning a term, looking it up returns the identifier that the
interning call returned. -/
theorem findIdentifier_findOrBuild_self (m : TermIdMap) (t : Term) :
    (m.findOrBuildIdentifier t).2.findIdentifier t =
      some (m.findOrBuildIdentifier t).1 := by
  unfold findOrBuildIdentifier
  cases h : jsGet t m.termsToIdentifiers with
  | some r => simpa [findIdentifier] using h
  | none => simp [findIdentifier, jsGet]

/-- When the term is already bound, findOrBuildIdentifier returns the bound
identifier and leaves the interner unchanged. -/
theorem findOrBuild_of_found (m : TermIdMap) (t : Term) (i : Nat)
    (h : m.findIdentifier t = some i) : m.findOrBuildIdentifier t = (i, m) := by
  unfold findOrBuildIdentifier
  unfold findIdentifier at h
  rw [h]

/-- Interning a term preserves every existing binding. -/
theorem findIdentifier_findOrBuild_preserve (m : TermIdMap) (t u : Term) (i : Nat)
    (h : m.findIdentifier u = some i) :
    (m.findOrBuildIdentifier t).2.findIdentifier u = some i := by
  unfold findOrBuildIdentifier
  cases hg : jsGet t m.termsToIdentifiers with
  | some r => simpa [findIdentifier] using h
  | none =>
    unfold findIdentifier at h ⊢
    simp only [jsGet]
    by_cases htu : t = u
    · subst htu
      rw [h] at hg
      cases hg
    · simp [htu, h]

/-- Interning a term never decreases the next-identifier counter. -/
theorem nextIdentifier_le_findOrBuild (m : TermIdMap) (t : Term) :
    m.nextIdentifier ≤ (m.findOrBuildIdentifier t).2.nextIdentifier := by
  unfold findOrBuildIdentifier
  cases hg : jsGet t m.termsToIdentifiers <;> simp

/-- A sequence of interner operations.  The only state-changing TermIdMap
method is findOrBuildIdentifier (every other method only reads), so a
sequence of operations is determined by the terms passed to the successive
findOrBuildIdentifier calls. -/
def runOps : TermIdMap → List Term → TermIdMap
  | m, [] => m
  | m, t :: ts => runOps (m.findOrBuildIdentifier t).2 ts

/-- A sequence of interner operations preserves every existing binding. -/
theorem findIdentifier_runOps_preserve (ts : List Term) (m : TermIdMap) (u : Term)
    (i : Nat) (h : m.findIdentifier u = some i) :
    (runOps m ts).findIdentifier u = some i := by
  induction ts generalizing m with
  | nil => exact h
  | cons t ts ih => exact ih _ (findIdentifier_findOrBuild_preserve m t u i h)

/-- A sequence of interner operations never decreases the next-identifier
counter. -/
theorem nextIdentifier_le_runOps (ts : List Term) (m : TermIdMap) :
    m.nextIdentifier ≤ (runOps m ts).nextIdentifier := by
  induction ts generalizing m with
  | nil => exact Nat.le_refl _
  | cons t ts ih => exact Nat.le_trans (nextIdentifier_le_findOrBuild m t) (ih _)

/-- After a full interning conversion of a quad, the non-mutating conversion
finds exactly the identifiers the interning conversion returned. -/
theorem tryConvert_convert (m : TermIdMap) (q : Quad) :
    (m.convertToIdentifierQuad q).2.tryConvertToIdentifierQuad q =
      some (m.convertToIdentifierQuad q).1 := by
  have h1 := findIdentifier_findOrBuild_self m q.1
  have h1 := findIdentifier_findOrBuild_preserve _ q.2.1 _ _ h1
  have h1 := findIdentifier_findOrBuild_preserve _ q.2.2.1 _ _ h1
  have h1 := findIdentifier_findOrBuild_preserve _ q.2.2.2 _ _ h1
  have h2 := findIdentifier_findOrBuild_self (m.findOrBuildIdentifier q.1).2 q.2.1
  have h2 := findIdentifier_findOrBuild_preserve _ q.2.2.1 _ _ h2
  have h2 := findIdentifier_findOrBuild_preserve _ q.2.2.2 _ _ h2
  have h3 := findIdentifier_findOrBuild_self
    ((m.findOrBuildIdentifier q.1).2.findOrBuildIdentifier q.2.1).2 q.2.2.1
  have h3 := findIdentifier_findOrBuild_preserve _ q.2.2.2 _ _ h3
  have h4 := findIdentifier_findOrBuild_self
    (((m.findOrBuildIdentifier q.1).2.findOrBuildIdentifier q.2.1).2.findOrBuildIdentifier
      q.2.2.1).2 q.2.2.2
  simp only [convertToIdentifierQuad, tryConvertToIdentifierQuad]
  rw [h1, h2, h3, h4]

/-- A pattern position is unknown exactly when its lifting fails. -/
theorem boundPosUnknown_eq_isNone (m : TermIdMap) (pos : Option Term) :
    m.boundPosUnknown pos = (m.liftBoundPos pos).isNone := by
  cases pos with
  | none => rfl
  | some t => cases h : m.findIdentifier t <;> simp [liftBoundPos, boundPosUnknown, h]

/-- matchIdentifiers signals an unsatisfiable pattern exactly when some bound
position holds an unknown term. -/
theorem matchIdentifiers_eq_none_iff (m : TermIdMap) (pat : TermPattern) :
    m.matchIdentifiers pat = none ↔ m.hasUnknownBoundTerm pat = true := by
  obtain ⟨s, p, o, g⟩ := pat
  simp only [matchIdentifiers, hasUnknownBoundTerm, boundPosUnknown_eq_isNone]
  cases m.liftBoundPos s <;> cases m.liftBoundPos p <;>
    cases m.liftBoundPos o <;> cases m.liftBoundPos g <;> simp

/-- tryConvertToIdentifierQuad fails exactly when some term of the quad is
unknown. -/
theorem tryConvert_eq_none_iff (m : TermIdMap) (q : Quad) :
    m.tryConvertToIdentifierQuad q = none ↔ m.hasUnknownTerm q = true := by
  unfold tryConvertToIdentifierQuad hasUnknownTerm
  cases h1 : m.findIdentifier q.1 <;> cases h2 : m.findIdentifier q.2.1 <;>
    cases h3 : m.findIdentifier q.2.2.1 <;> cases h4 : m.findIdentifier q.2.2.2 <;> simp

end TermIdMap

/-! Lemmas about the heap and the facade state helpers. -/

/-- Reading back a reference just written. -/
theorem getRef_setRef_self (w : World) (r : Nat) (m : TermIdMap) (h : r < w.length) :
    getRef (setRef w r m) r = m := by
  induction w generalizing r with
  | nil => cases h
  | cons x w ih =>
    cases r with
    | zero => rfl
    | succ r => exact ih r (Nat.lt_of_succ_lt_succ h)

/-- Reading the reference allocated at the end of the heap. -/
theorem getRef_append_singleton (w : World) (m : TermIdMap) :
    getRef (w ++ [m]) w.length = m := by
  induction w with
  | nil => rfl
  | cons x w ih => simpa using ih

namespace WasmTreeDataset

/-- ensureHasForest keeps the cached identifier list. -/
theorem ensureHasForest_identifierList (d : WasmTreeDataset) :
    d.ensureHasForest.identifierList = d.identifierList := by
  unfold ensureHasForest
  cases d.forest <;> rfl

/-- ensureHasForest keeps the interner reference. -/
theorem ensureHasForest_termIdMap (d : WasmTreeDataset) :
    d.ensureHasForest.termIdMap = d.termIdMap := by
  unfold ensureHasForest
  cases d.forest <;> rfl

/-- ensureHasForest yields a facade that owns a forest. -/
theorem ensureHasForest_forest_isSome (d : WasmTreeDataset) :
    d.ensureHasForest.forest ≠ none := by
  unfold ensureHasForest
  cases h : d.forest <;> simp [h]

/-- ensureHasForest keeps a forest that was already present. -/
theorem ensureHasForest_forest_of_some (d : WasmTreeDataset) (f : Forest)
    (h : d.forest = some f) : d.ensureHasForest.forest = some f := by
  unfold ensureHasForest
  rw [h]
  exact h

/-- The identifier sequence read out of a facade is unchanged by forest
materialization. -/
theorem asIdentifierList_ensureHasForest (d : WasmTreeDataset) :
    (d.ensureHasForest.asIdentifierList).1 = (d.asIdentifierList).1 := by
  cases hf : d.forest with
  | some f => simp [ensureHasForest, hf]
  | none =>
    cases hl : d.identifierList with
    | some l => simp [ensureHasForest, asIdentifierList, hf, hl]
    | none =>
      simp [ensureHasForest, asIdentifierList, hf, hl, Forest.get_all, Forest.empty]

end WasmTreeDataset

/-! Claim C9. -/

/-- C9: for every interner and every term, the intern-or-add operation
(findOrBuildIdentifier) returns after any further sequence of interner
operations the same identifier it returned first, and the next-identifier
counter never decreases across any sequence of interner operations. -/
theorem interner_findOrBuild_stable_and_next_monotone
    (m : TermIdMap) (t : Term) (ops : List Term) :
    ((TermIdMap.runOps (m.findOrBuildIdentifier t).2 ops).findOrBuildIdentifier t).1 =
      (m.findOrBuildIdentifier t).1 ∧
    m.nextIdentifier ≤ (TermIdMap.runOps m ops).nextIdentifier := by
  constructor
  · have h := TermIdMap.findIdentifier_runOps_preserve ops _ t _
      (TermIdMap.findIdentifier_findOrBuild_self m t)
    rw [TermIdMap.findOrBuild_of_found _ t _ h]
  · exact TermIdMap.nextIdentifier_le_runOps ops m

/-! Claim C10. -/

/-- C10: for every dataset facade of every variant and in every state, the
public toArray method returns the empty array, because it passes the
uninvoked iterator method (a function declared with zero parameters) to
Array.from, which consumes it as an array-like of length zero. -/
theorem toArray_always_empty :
    (∀ d : WasmTreeDataset, d.toArray = []) ∧
    (∀ d : AlwaysForestDataset, d.toArray = []) ∧
    (∀ d : DatasetWithIdentifierList, d.toArray = []) ∧
    (∀ d : DatasetWithSharedTermIdMap, d.toArray = []) := by
  exact ⟨fun _ => rfl, fun _ => rfl, fun _ => rfl, fun _ => rfl⟩

/-! Claim C7. -/

/-- C7: removeMatches emits end exactly once across the synchronous and the
deferred phase; on an unsatisfiable pattern it emits end synchronously,
schedules no task and leaves the store untouched; on a satisfiable pattern it
emits nothing synchronously and end fires in the deferred task, after the
caller has returned, so a listener attached by the caller after the call
observes it. -/
theorem removeMatches_end_exactly_once (w : World) (s : WasmTreeStore)
    (pat : TermPattern) :
    ((WasmTreeStore.removeMatches w s pat).syncEvents ++
      (WasmTreeStore.runDeferred s (WasmTreeStore.removeMatches w s pat)).2).count
        .endEvent = 1 ∧
    ((getRef w s.termIdMap).matchIdentifiers pat = none →
      (WasmTreeStore.removeMatches w s pat).syncEvents = [.endEvent] ∧
      (WasmTreeStore.removeMatches w s pat).deferredTask = none ∧
      (WasmTreeStore.runDeferred s (WasmTreeStore.removeMatches w s pat)).1 = s) ∧
    (∀ ip, (getRef w s.termIdMap).matchIdentifiers pat = some ip →
      (WasmTreeStore.removeMatches w s pat).syncEvents = [] ∧
      (WasmTreeStore.runDeferred s (WasmTreeStore.removeMatches w s pat)).2 =
        [.endEvent]) := by
  cases h : (getRef w s.termIdMap).matchIdentifiers pat with
  | none =>
    refine ⟨?_, fun _ => ⟨?_, ?_, ?_⟩, fun ip hip => ?_⟩
    · simp [WasmTreeStore.removeMatches, WasmTreeStore.runDeferred, h]
    · simp [WasmTreeStore.removeMatches, h]
    · simp [WasmTreeStore.removeMatches, h]
    · simp [WasmTreeStore.removeMatches, WasmTreeStore.runDeferred, h]
    · exact Option.noConfusion hip
  | some ip =>
    refine ⟨?_, fun hn => ?_, fun ip2 hip => ⟨?_, ?_⟩⟩
    · simp [WasmTreeStore.removeMatches, WasmTreeStore.runDeferred, h]
    · exact Option.noConfusion hn
    · simp [WasmTreeStore.removeMatches, h]
    · simp [WasmTreeStore.removeMatches, WasmTreeStore.runDeferred, h]

/-- Witness for C7 at concrete inputs: an unsatisfiable pattern on a live
store, and a satisfiable one. -/
theorem removeMatches_end_exactly_once_witness :
    ((WasmTreeStore.removeMatches [mkTermIdMap] ⟨0, some Forest.empty⟩
        (some "s", none, none, none)).syncEvents = [.endEvent] ∧
      (WasmTreeStore.runDeferred ⟨0, some Forest.empty⟩
        (WasmTreeStore.removeMatches [mkTermIdMap] ⟨0, some Forest.empty⟩
          (some "s", none, none, none))).1 = ⟨0, some Forest.empty⟩) ∧
    ((WasmTreeStore.removeMatches [mkTermIdMap] ⟨0, some Forest.empty⟩
        (none, none, none, none)).syncEvents = [] ∧
      (WasmTreeStore.runDeferred ⟨0, some Forest.empty⟩
        (WasmTreeStore.removeMatches [mkTermIdMap] ⟨0, some Forest.empty⟩
          (none, none, none, none))).2 = [.endEvent]) := by
  have h1 := removeMatches_end_exactly_once [mkTermIdMap] ⟨0, some Forest.empty⟩
    (some "s", none, none, none)
  have h2 := removeMatches_end_exactly_once [mkTermIdMap] ⟨0, some Forest.empty⟩
    (none, none, none, none)
  refine ⟨?_, ?_⟩
  · have hu := h1.2.1 (by decide)
    exact ⟨hu.1, hu.2.2⟩
  · have hs := h2.2.2 (none, none, none, none) (by decide)
    exact ⟨hs.1, hs.2⟩

/-! Claim C8. -/

/-- C8: freeing a facade twice is the same as freeing it once (and raises no
error, the operation being total), a freed facade is empty, and after free
followed by add of any quad the facade lazily rebuilds: has returns true and
the size is one. -/
theorem free_idempotent_and_reusable (w : World) (d : WasmTreeDataset) (q : Quad)
    (h : d.termIdMap < w.length) :
    d.free.free = d.free ∧ d.free.size = 0 ∧
    (WasmTreeDataset.has (WasmTreeDataset.add w d.free q).1
        (WasmTreeDataset.add w d.free q).2 q).1 = true ∧
    (WasmTreeDataset.add w d.free q).2.size = 1 := by
  have hw := getRef_setRef_self w d.termIdMap
    ((getRef w d.termIdMap).convertToIdentifierQuad q).2 h
  refine ⟨rfl, rfl, ?_, ?_⟩
  · simp only [WasmTreeDataset.add, WasmTreeDataset.free,
      WasmTreeDataset.ensureHasModifiableForest, WasmTreeDataset.ensureHasForest,
      WasmTreeDataset.has]
    rw [hw, TermIdMap.tryConvert_convert]
    simp [Forest.has, Forest.add, Forest.empty]
  · simp [WasmTreeDataset.add, WasmTreeDataset.free,
      WasmTreeDataset.ensureHasModifiableForest, WasmTreeDataset.ensureHasForest,
      WasmTreeDataset.size, Forest.size, Forest.add, Forest.empty]

/-- Witness for C8 at a concrete facade, heap and quad. -/
theorem free_idempotent_and_reusable_witness :
    (⟨0, some Forest.empty, none⟩ : WasmTreeDataset).free.free =
      (⟨0, some Forest.empty, none⟩ : WasmTreeDataset).free ∧
    (⟨0, some Forest.empty, none⟩ : WasmTreeDataset).free.size = 0 ∧
    (WasmTreeDataset.has
        (WasmTreeDataset.add [mkTermIdMap]
          (⟨0, some Forest.empty, none⟩ : WasmTreeDataset).free ("s", "p", "o", "g")).1
        (WasmTreeDataset.add [mkTermIdMap]
          (⟨0, some Forest.empty, none⟩ : WasmTreeDataset).free ("s", "p", "o", "g")).2
        ("s", "p", "o", "g")).1 = true ∧
    (WasmTreeDataset.add [mkTermIdMap]
        (⟨0, some Forest.empty, none⟩ : WasmTreeDataset).free ("s", "p", "o", "g")).2.size
      = 1 :=
  free_idempotent_and_reusable [mkTermIdMap] ⟨0, some Forest.empty, none⟩
    ("s", "p", "o", "g") (by decide)

/-! Claim C1. -/

/-- C1: on a pattern with a bound term unknown to the interner, match returns
an empty dataset, countQuads returns zero and deleteMatches returns the facade
itself unchanged; has of a quad with any unknown term returns false and
changes nothing; no error is raised (every operation is total). -/
theorem unsatisfiable_pattern_absorbed (w : World) (d : WasmTreeDataset)
    (pat : TermPattern) (q : Quad)
    (hpat : (getRef w d.termIdMap).hasUnknownBoundTerm pat = true)
    (hq : (getRef w d.termIdMap).hasUnknownTerm q = true) :
    (WasmTreeDataset.dsMatch w d pat).2.size = 0 ∧
    (WasmTreeDataset.countQuads w d pat).1 = 0 ∧
    WasmTreeDataset.deleteMatches w d pat = d ∧
    (WasmTreeDataset.has w d q).1 = false ∧
    (WasmTreeDataset.has w d q).2 = d := by
  have hm := (TermIdMap.matchIdentifiers_eq_none_iff _ pat).2 hpat
  have ht := (TermIdMap.tryConvert_eq_none_iff _ q).2 hq
  refine ⟨?_, ?_, ?_, ?_, ?_⟩
  · simp [WasmTreeDataset.dsMatch, hm, WasmTreeDataset.construct, WasmTreeDataset.size]
  · cases hf : d.forest <;> cases hl : d.identifierList <;>
      simp [WasmTreeDataset.countQuads, hm, hf, hl]
  · simp [WasmTreeDataset.deleteMatches, hm]
  · simp [WasmTreeDataset.has, ht]
  · simp [WasmTreeDataset.has, ht]

/-- Witness for C1 at a concrete heap, facade, pattern and quad whose terms
are unknown to the interner. -/
theorem unsatisfiable_pattern_absorbed_witness :
    (WasmTreeDataset.dsMatch [mkTermIdMap] ⟨0, none, none⟩
        (some "s", none, none, none)).2.size = 0 ∧
    (WasmTreeDataset.countQuads [mkTermIdMap] ⟨0, none, none⟩
        (some "s", none, none, none)).1 = 0 ∧
    WasmTreeDataset.deleteMatches [mkTermIdMap] ⟨0, none, none⟩
        (some "s", none, none, none) = ⟨0, none, none⟩ ∧
    (WasmTreeDataset.has [mkTermIdMap] ⟨0, none, none⟩ ("s", "p", "o", "g")).1 = false ∧
    (WasmTreeDataset.has [mkTermIdMap] ⟨0, none, none⟩ ("s", "p", "o", "g")).2 =
      ⟨0, none, none⟩ :=
  unsatisfiable_pattern_absorbed [mkTermIdMap] ⟨0, none, none⟩
    (some "s", none, none, none) ("s", "p", "o", "g") (by decide) (by decide)

/-! Claim C6. -/

/-- When some quad of the list holds an unknown term, the equality identifier
list cannot be built. -/
theorem buildIdentifierListForEquality_eq_none (m : TermIdMap) (l : List Quad)
    (h : ∃ q ∈ l, m.tryConvertToIdentifierQuad q = none) :
    m.buildIdentifierListForEquality l = none := by
  induction l with
  | nil => obtain ⟨q, hq, _⟩ := h; cases hq
  | cons x rest ih =>
    obtain ⟨q, hq, hnone⟩ := h
    unfold TermIdMap.buildIdentifierListForEquality
    rcases List.mem_cons.1 hq with hx | hx
    · subst hx
      rw [hnone]
    · cases hc : m.tryConvertToIdentifierQuad x with
      | none => rfl
      | some idq =>
        rw [ih ⟨q, hx, hnone⟩]

/-- C6: on the slow path (the other collection is consumed as an iterable of
quads because it is not a same-interner facade), if some quad of the other
collection holds a term unknown to the interner of the receiver, then equals
and contains return false; the heap of interners is unchanged, the cached
identifier list is unchanged, the quads represented by the receiver are
unchanged, and a forest the receiver already owned is untouched (at most an
equivalent forest is materialized from the receiver's own cache). -/
theorem equals_contains_unknown_term_false (w : World) (d : WasmTreeDataset)
    (other : List Quad)
    (h : ∃ q ∈ other, (getRef w d.termIdMap).hasUnknownTerm q = true) :
    (WasmTreeDataset.equalsIter w d other).1 = false ∧
    (WasmTreeDataset.containsIter w d other).1 = false ∧
    (WasmTreeDataset.equalsIter w d other).2.1 = w ∧
    (WasmTreeDataset.containsIter w d other).2.1 = w ∧
    (WasmTreeDataset.equalsIter w d other).2.2 = d.ensureHasForest ∧
    (WasmTreeDataset.containsIter w d other).2.2 = d.ensureHasForest ∧
    d.ensureHasForest.identifierList = d.identifierList ∧
    (d.ensureHasForest.asIdentifierList).1 = (d.asIdentifierList).1 ∧
    (∀ f, d.forest = some f → d.ensureHasForest.forest = some f) := by
  have hb : (getRef w d.termIdMap).buildIdentifierListForEquality other = none := by
    obtain ⟨q, hq, hU⟩ := h
    exact buildIdentifierListForEquality_eq_none _ other
      ⟨q, hq, (TermIdMap.tryConvert_eq_none_iff _ q).2 hU⟩
  refine ⟨?_, ?_, ?_, ?_, ?_, ?_,
    WasmTreeDataset.ensureHasForest_identifierList d,
    WasmTreeDataset.asIdentifierList_ensureHasForest d,
    WasmTreeDataset.ensureHasForest_forest_of_some d⟩
  · simp [WasmTreeDataset.equalsIter, hb]
  · simp [WasmTreeDataset.containsIter, hb]
  · simp [WasmTreeDataset.equalsIter, hb]
  · simp [WasmTreeDataset.containsIter, hb]
  · simp [WasmTreeDataset.equalsIter, hb]
  · simp [WasmTreeDataset.containsIter, hb]

/-- Witness for C6 at a concrete heap, facade and right-hand collection with
an unknown term. -/
theorem equals_contains_unknown_term_false_witness :
    (WasmTreeDataset.equalsIter [mkTermIdMap] ⟨0, none, none⟩
        [("s", "p", "o", "g")]).1 = false ∧
    (WasmTreeDataset.containsIter [mkTermIdMap] ⟨0, none, none⟩
        [("s", "p", "o", "g")]).1 = false ∧
    (WasmTreeDataset.equalsIter [mkTermIdMap] ⟨0, none, none⟩
        [("s", "p", "o", "g")]).2.1 = [mkTermIdMap] ∧
    (WasmTreeDataset.containsIter [mkTermIdMap] ⟨0, none, none⟩
        [("s", "p", "o", "g")]).2.1 = [mkTermIdMap] :=
  have h := equals_contains_unknown_term_false [mkTermIdMap] ⟨0, none, none⟩
    [("s", "p", "o", "g")] ⟨("s", "p", "o", "g"), by decide, by decide⟩
  ⟨h.1, h.2.1, h.2.2.1, h.2.2.2.1⟩

/-! Claim C2. -/

/-- Duplicating an interner with an empty identifier list yields the fresh
constructor map with the next-identifier counter of the source. -/
theorem duplicate_nil (source : TermIdMap) :
    TermIdMap.duplicate source [] =
      { mkTermIdMap with nextIdentifier := source.nextIdentifier } := rfl

/-- C2 as amended: a facade returned from an unsatisfiable match has size
zero; its interner is the parent facade's interner object for WasmTreeDataset
only, while DatasetWithSharedTermIdMap, AlwaysForestDataset and
DatasetWithIdentifierList all allocate a fresh interner containing at least
the default-graph mapping at identifier 0 (the duplicate built by
DatasetWithIdentifierList also keeps the parent's next-identifier
counter). -/
theorem empty_match_facade (w : World)
    (dW : WasmTreeDataset) (patW : TermPattern)
    (dS : DatasetWithSharedTermIdMap) (patS : TermPattern)
    (dA : AlwaysForestDataset) (patA : TermPattern)
    (dI : DatasetWithIdentifierList) (patI : TermPattern)
    (hW : (getRef w dW.termIdMap).hasUnknownBoundTerm patW = true)
    (hS : (getRef w dS.termIdMap).hasUnknownBoundTerm patS = true)
    (hA : (getRef w dA.termIdMap).hasUnknownBoundTerm patA = true)
    (hI : (getRef w dI.termIdMap).hasUnknownBoundTerm patI = true)
    (hSlive : dS.termIdMap < w.length)
    (hAlive : dA.termIdMap < w.length)
    (hIlive : dI.termIdMap < w.length) :
    ((WasmTreeDataset.dsMatch w dW patW).2.size = 0 ∧
     (WasmTreeDataset.dsMatch w dW patW).2.termIdMap = dW.termIdMap) ∧
    ((DatasetWithSharedTermIdMap.dsMatch w dS patS).2.2.size = 0 ∧
     (DatasetWithSharedTermIdMap.dsMatch w dS patS).2.2.termIdMap ≠ dS.termIdMap ∧
     getRef (DatasetWithSharedTermIdMap.dsMatch w dS patS).1
       (DatasetWithSharedTermIdMap.dsMatch w dS patS).2.2.termIdMap = mkTermIdMap) ∧
    ((AlwaysForestDataset.dsMatch w dA patA).2.2.size = 0 ∧
     (AlwaysForestDataset.dsMatch w dA patA).2.2.termIdMap ≠ dA.termIdMap ∧
     getRef (AlwaysForestDataset.dsMatch w dA patA).1
       (AlwaysForestDataset.dsMatch w dA patA).2.2.termIdMap = mkTermIdMap) ∧
    ((DatasetWithIdentifierList.dsMatch w dI patI).2.2.size = 0 ∧
     (DatasetWithIdentifierList.dsMatch w dI patI).2.2.termIdMap ≠ dI.termIdMap ∧
     (getRef (DatasetWithIdentifierList.dsMatch w dI patI).1
        (DatasetWithIdentifierList.dsMatch w dI patI).2.2.termIdMap).getTerm 0 =
       some defaultGraphConcise ∧
     (getRef (DatasetWithIdentifierList.dsMatch w dI patI).1
        (DatasetWithIdentifierList.dsMatch w dI patI).2.2.termIdMap).nextIdentifier =
       (getRef w dI.termIdMap).nextIdentifier) := by
  have hmW := (TermIdMap.matchIdentifiers_eq_none_iff _ patW).2 hW
  have hmS := (TermIdMap.matchIdentifiers_eq_none_iff _ patS).2 hS
  have hmA := (TermIdMap.matchIdentifiers_eq_none_iff _ patA).2 hA
  have hmI := (TermIdMap.matchIdentifiers_eq_none_iff _ patI).2 hI
  refine ⟨⟨?_, ?_⟩, ⟨?_, ?_, ?_⟩, ⟨?_, ?_, ?_⟩, ⟨?_, ?_, ?_, ?_⟩⟩
  · simp [WasmTreeDataset.dsMatch, hmW, WasmTreeDataset.construct,
      WasmTreeDataset.size]
  · simp [WasmTreeDataset.dsMatch, hmW, WasmTreeDataset.construct]
  · simp [DatasetWithSharedTermIdMap.dsMatch, hmS,
      DatasetWithSharedTermIdMap.construct, allocRef,
      DatasetWithSharedTermIdMap.size, Forest.size, Forest.empty]
  · simpa [DatasetWithSharedTermIdMap.dsMatch, hmS,
      DatasetWithSharedTermIdMap.construct, allocRef] using hSlive.ne'
  · simp [DatasetWithSharedTermIdMap.dsMatch, hmS,
      DatasetWithSharedTermIdMap.construct, allocRef, getRef_append_singleton]
  · simp [AlwaysForestDataset.dsMatch, hmA, AlwaysForestDataset.construct,
      allocRef, AlwaysForestDataset.size, Forest.size, Forest.empty]
  · simpa [AlwaysForestDataset.dsMatch, hmA, AlwaysForestDataset.construct,
      allocRef] using hAlive.ne'
  · simp [AlwaysForestDataset.dsMatch, hmA, AlwaysForestDataset.construct,
      allocRef, getRef_append_singleton]
  · simp [DatasetWithIdentifierList.dsMatch, hmI,
      DatasetWithIdentifierList.construct, allocRef,
      DatasetWithIdentifierList.size]
  · simpa [DatasetWithIdentifierList.dsMatch, hmI,
      DatasetWithIdentifierList.construct, allocRef] using hIlive.ne'
  · simp [DatasetWithIdentifierList.dsMatch, hmI,
      DatasetWithIdentifierList.construct, allocRef, getRef_append_singleton,
      duplicate_nil, TermIdMap.getTerm, mkTermIdMap, jsGet]
  · simp [DatasetWithIdentifierList.dsMatch, hmI,
      DatasetWithIdentifierList.construct, allocRef, getRef_append_singleton,
      duplicate_nil]

/-- Witness for C2 as amended, at a concrete heap holding one interner shared
by facades of the four variants, and unsatisfiable patterns. -/
theorem empty_match_facade_witness :
    ((WasmTreeDataset.dsMatch [mkTermIdMap] ⟨0, none, none⟩
        (some "b", none, none, none)).2.size = 0 ∧
     (WasmTreeDataset.dsMatch [mkTermIdMap] ⟨0, none, none⟩
        (some "b", none, none, none)).2.termIdMap =
       (⟨0, none, none⟩ : WasmTreeDataset).termIdMap) ∧
    ((DatasetWithSharedTermIdMap.dsMatch [mkTermIdMap] ⟨0, some Forest.empty⟩
        (some "b", none, none, none)).2.2.size = 0 ∧
     (DatasetWithSharedTermIdMap.dsMatch [mkTermIdMap] ⟨0, some Forest.empty⟩
        (some "b", none, none, none)).2.2.termIdMap ≠
       (⟨0, some Forest.empty⟩ : DatasetWithSharedTermIdMap).termIdMap ∧
     getRef (DatasetWithSharedTermIdMap.dsMatch [mkTermIdMap] ⟨0, some Forest.empty⟩
        (some "b", none, none, none)).1
       (DatasetWithSharedTermIdMap.dsMatch [mkTermIdMap] ⟨0, some Forest.empty⟩
        (some "b", none, none, none)).2.2.termIdMap = mkTermIdMap) ∧
    ((AlwaysForestDataset.dsMatch [mkTermIdMap] ⟨0, some Forest.empty⟩
        (some "b", none, none, none)).2.2.size = 0 ∧
     (AlwaysForestDataset.dsMatch [mkTermIdMap] ⟨0, some Forest.empty⟩
        (some "b", none, none, none)).2.2.termIdMap ≠
       (⟨0, some Forest.empty⟩ : AlwaysForestDataset).termIdMap ∧
     getRef (AlwaysForestDataset.dsMatch [mkTermIdMap] ⟨0, some Forest.empty⟩
        (some "b", none, none, none)).1
       (AlwaysForestDataset.dsMatch [mkTermIdMap] ⟨0, some Forest.empty⟩
        (some "b", none, none, none)).2.2.termIdMap = mkTermIdMap) ∧
    ((DatasetWithIdentifierList.dsMatch [mkTermIdMap] ⟨0, none, none⟩
        (some "b", none, none, none)).2.2.size = 0 ∧
     (DatasetWithIdentifierList.dsMatch [mkTermIdMap] ⟨0, none, none⟩
        (some "b", none, none, none)).2.2.termIdMap ≠
       (⟨0, none, none⟩ : DatasetWithIdentifierList).termIdMap ∧
     (getRef (DatasetWithIdentifierList.dsMatch [mkTermIdMap] ⟨0, none, none⟩
        (some "b", none, none, none)).1
       (DatasetWithIdentifierList.dsMatch [mkTermIdMap] ⟨0, none, none⟩
        (some "b", none, none, none)).2.2.termIdMap).getTerm 0 =
       some defaultGraphConcise ∧
     (getRef (DatasetWithIdentifierList.dsMatch [mkTermIdMap] ⟨0, none, none⟩
        (some "b", none, none, none)).1
       (DatasetWithIdentifierList.dsMatch [mkTermIdMap] ⟨0, none, none⟩
        (some "b", none, none, none)).2.2.termIdMap).nextIdentifier =
       (getRef [mkTermIdMap]
         (⟨0, none, none⟩ : DatasetWithIdentifierList).termIdMap).nextIdentifier) :=
  empty_match_facade [mkTermIdMap]
    ⟨0, none, none⟩ (some "b", none, none, none)
    ⟨0, some Forest.empty⟩ (some "b", none, none, none)
    ⟨0, some Forest.empty⟩ (some "b", none, none, none)
    ⟨0, none, none⟩ (some "b", none, none, none)
    (by decide) (by decide) (by decide) (by decide)
    (by decide) (by decide) (by decide)

/-- Counterexample to C2 as stated: for the Shared variant
DatasetWithSharedTermIdMap, the facade returned from an unsatisfiable match
does not hold the parent facade's interner object; it holds a freshly
allocated interner that is not even equal in value to the parent's. -/
theorem empty_match_facade_counterexample :
    (DatasetWithSharedTermIdMap.dsMatch [(mkTermIdMap.findOrBuildIdentifier "a").2]
        ⟨0, some Forest.empty⟩ (some "b", none, none, none)).2.2.termIdMap ≠
      (⟨0, some Forest.empty⟩ : DatasetWithSharedTermIdMap).termIdMap ∧
    getRef (DatasetWithSharedTermIdMap.dsMatch
        [(mkTermIdMap.findOrBuildIdentifier "a").2]
        ⟨0, some Forest.empty⟩ (some "b", none, none, none)).1
      (DatasetWithSharedTermIdMap.dsMatch [(mkTermIdMap.findOrBuildIdentifier "a").2]
        ⟨0, some Forest.empty⟩ (some "b", none, none, none)).2.2.termIdMap ≠
    getRef (DatasetWithSharedTermIdMap.dsMatch
        [(mkTermIdMap.findOrBuildIdentifier "a").2]
        ⟨0, some Forest.empty⟩ (some "b", none, none, none)).1
      (⟨0, some Forest.empty⟩ : DatasetWithSharedTermIdMap).termIdMap := by
  decide

/-! Claim C5. -/

/-- C5 as amended: after a satisfiable match, the returned facade holds the
resulting identifier sequence and no forest for the identifier-list-caching
variants (WasmTreeDataset, DatasetWithIdentifierList); for the forest-only
variants (AlwaysForestDataset, DatasetWithSharedTermIdMap) the returned
facade instead materializes a forest built from that sequence at construction
time. -/
theorem match_result_representation (w : World)
    (dW : WasmTreeDataset) (patW : TermPattern) (ipW : IdPattern)
    (dI : DatasetWithIdentifierList) (patI : TermPattern) (ipI : IdPattern)
    (dA : AlwaysForestDataset) (patA : TermPattern) (ipA : IdPattern)
    (dS : DatasetWithSharedTermIdMap) (patS : TermPattern) (ipS : IdPattern)
    (hW : (getRef w dW.termIdMap).matchIdentifiers patW = some ipW)
    (hI : (getRef w dI.termIdMap).matchIdentifiers patI = some ipI)
    (hA : (getRef w dA.termIdMap).matchIdentifiers patA = some ipA)
    (hS : (getRef w dS.termIdMap).matchIdentifiers patS = some ipS) :
    ((WasmTreeDataset.dsMatch w dW patW).2.forest = none ∧
     (WasmTreeDataset.dsMatch w dW patW).2.identifierList =
       some ((dW.ensureHasForest.forest.getD Forest.empty).get_all ipW)) ∧
    ((DatasetWithIdentifierList.dsMatch w dI patI).2.2.forest = none ∧
     (DatasetWithIdentifierList.dsMatch w dI patI).2.2.identifierList =
       some ((dI.ensureHasForest.forest.getD Forest.empty).get_all ipI)) ∧
    ((AlwaysForestDataset.dsMatch w dA patA).2.2.forest =
       some (Forest.fromIdentifierList
         ((dA.ensureHasForest.forest.getD Forest.empty).get_all ipA))) ∧
    ((DatasetWithSharedTermIdMap.dsMatch w dS patS).2.2.forest =
       some (Forest.fromIdentifierList
         ((dS.ensureHasForest.forest.getD Forest.empty).get_all ipS))) := by
  refine ⟨⟨?_, ?_⟩, ⟨?_, ?_⟩, ?_, ?_⟩
  · simp [WasmTreeDataset.dsMatch, hW, WasmTreeDataset.construct]
  · simp [WasmTreeDataset.dsMatch, hW, WasmTreeDataset.construct]
  · simp [DatasetWithIdentifierList.dsMatch, hI,
      DatasetWithIdentifierList.construct, allocRef]
  · simp [DatasetWithIdentifierList.dsMatch, hI,
      DatasetWithIdentifierList.construct, allocRef]
  · simp [AlwaysForestDataset.dsMatch, hA, AlwaysForestDataset.construct, allocRef]
  · simp [DatasetWithSharedTermIdMap.dsMatch, hS,
      DatasetWithSharedTermIdMap.construct]

/-- Witness for C5 as amended: one facade of each variant holding one quad,
matched with the full-wildcard (satisfiable) pattern. -/
theorem match_result_representation_witness :
    ((WasmTreeDataset.dsMatch [mkTermIdMap] ⟨0, some [(1, 2, 3, 0)], none⟩
        (none, none, none, none)).2.forest = none ∧
     (WasmTreeDataset.dsMatch [mkTermIdMap] ⟨0, some [(1, 2, 3, 0)], none⟩
        (none, none, none, none)).2.identifierList =
       some (((⟨0, some [(1, 2, 3, 0)], none⟩ :
           WasmTreeDataset).ensureHasForest.forest.getD Forest.empty).get_all
         (none, none, none, none))) ∧
    ((DatasetWithIdentifierList.dsMatch [mkTermIdMap] ⟨0, some [(1, 2, 3, 0)], none⟩
        (none, none, none, none)).2.2.forest = none ∧
     (DatasetWithIdentifierList.dsMatch [mkTermIdMap] ⟨0, some [(1, 2, 3, 0)], none⟩
        (none, none, none, none)).2.2.identifierList =
       some (((⟨0, some [(1, 2, 3, 0)], none⟩ :
           DatasetWithIdentifierList).ensureHasForest.forest.getD Forest.empty).get_all
         (none, none, none, none))) ∧
    ((AlwaysForestDataset.dsMatch [mkTermIdMap] ⟨0, some [(1, 2, 3, 0)]⟩
        (none, none, none, none)).2.2.forest =
       some (Forest.fromIdentifierList
         (((⟨0, some [(1, 2, 3, 0)]⟩ :
             AlwaysForestDataset).ensureHasForest.forest.getD Forest.empty).get_all
           (none, none, none, none)))) ∧
    ((DatasetWithSharedTermIdMap.dsMatch [mkTermIdMap] ⟨0, some [(1, 2, 3, 0)]⟩
        (none, none, none, none)).2.2.forest =
       some (Forest.fromIdentifierList
         (((⟨0, some [(1, 2, 3, 0)]⟩ :
             DatasetWithSharedTermIdMap).ensureHasForest.forest.getD Forest.empty).get_all
           (none, none, none, none)))) :=
  match_result_representation [mkTermIdMap]
    ⟨0, some [(1, 2, 3, 0)], none⟩ (none, none, none, none) (none, none, none, none)
    ⟨0, some [(1, 2, 3, 0)], none⟩ (none, none, none, none) (none, none, none, none)
    ⟨0, some [(1, 2, 3, 0)]⟩ (none, none, none, none) (none, none, none, none)
    ⟨0, some [(1, 2, 3, 0)]⟩ (none, none, none, none) (none, none, none, none)
    (by decide) (by decide) (by decide) (by decide)

/-- Counterexample to C5 as stated: for AlwaysForestDataset, the facade
returned by a satisfiable match materializes a forest at creation time, so it
is not true that for every dataset facade the match result holds no forest. -/
theorem match_result_representation_counterexample :
    (AlwaysForestDataset.dsMatch [mkTermIdMap]
        ⟨0, some [(1, 2, 3, 0)]⟩ (none, none, none, none)).2.2.forest ≠ none := by
  decide

/-! Claim C4. -/

/-- C4 as amended: on a facade holding a cached identifier sequence, the
read-only operations has, match, countQuads and the iterator's
asIdentifierList leave the cached sequence in place; add always forces a
modifiable forest and drops the sequence; delete does so exactly when the
quad is fully known to the interner (otherwise it is a no-op); deleteMatches
does so exactly when the pattern is satisfiable (otherwise it is a no-op);
addAll materializes a forest but never drops the cached sequence (which
therefore goes stale). -/
theorem cached_sequence_frame (w : World) (d : WasmTreeDataset) (l : List Nat)
    (hl : d.identifierList = some l) (q : Quad) (pat : TermPattern)
    (other : List Quad) :
    (WasmTreeDataset.has w d q).2.identifierList = some l ∧
    (WasmTreeDataset.dsMatch w d pat).1.identifierList = some l ∧
    (WasmTreeDataset.countQuads w d pat).2.identifierList = some l ∧
    (WasmTreeDataset.asIdentifierList d).2.identifierList = some l ∧
    ((WasmTreeDataset.add w d q).2.identifierList = none ∧
     (WasmTreeDataset.add w d q).2.forest ≠ none) ∧
    ((getRef w d.termIdMap).tryConvertToIdentifierQuad q ≠ none →
      (WasmTreeDataset.delete w d q).2.identifierList = none ∧
      (WasmTreeDataset.delete w d q).2.forest ≠ none) ∧
    ((getRef w d.termIdMap).tryConvertToIdentifierQuad q = none →
      (WasmTreeDataset.delete w d q).2 = d) ∧
    ((getRef w d.termIdMap).matchIdentifiers pat ≠ none →
      (WasmTreeDataset.deleteMatches w d pat).identifierList = none ∧
      (WasmTreeDataset.deleteMatches w d pat).forest ≠ none) ∧
    ((getRef w d.termIdMap).matchIdentifiers pat = none →
      WasmTreeDataset.deleteMatches w d pat = d) ∧
    ((WasmTreeDataset.addAll w d other).2.identifierList = some l ∧
     (WasmTreeDataset.addAll w d other).2.forest ≠ none) := by
  refine ⟨?_, ?_, ?_, ?_, ⟨?_, ?_⟩, fun hne => ?_, fun heq => ?_,
    fun hne => ?_, fun heq => ?_, ?_, ?_⟩
  · cases hc : (getRef w d.termIdMap).tryConvertToIdentifierQuad q <;>
      simp [WasmTreeDataset.has, hc, hl, WasmTreeDataset.ensureHasForest_identifierList]
  · cases hm : (getRef w d.termIdMap).matchIdentifiers pat <;>
      simp [WasmTreeDataset.dsMatch, hm, hl,
        WasmTreeDataset.ensureHasForest_identifierList]
  · cases hf : d.forest <;>
      cases hm : (getRef w d.termIdMap).matchIdentifiers pat <;>
      simp [WasmTreeDataset.countQuads, hf, hm, hl,
        WasmTreeDataset.ensureHasForest_identifierList]
  · simp [WasmTreeDataset.asIdentifierList, hl]
  · simp [WasmTreeDataset.add, WasmTreeDataset.ensureHasModifiableForest]
  · simp [WasmTreeDataset.add, WasmTreeDataset.ensureHasModifiableForest]
  · cases hc : (getRef w d.termIdMap).tryConvertToIdentifierQuad q with
    | none => exact absurd hc hne
    | some idq =>
      simp [WasmTreeDataset.delete, hc, WasmTreeDataset.ensureHasModifiableForest]
  · simp [WasmTreeDataset.delete, heq]
  · cases hm : (getRef w d.termIdMap).matchIdentifiers pat with
    | none => exact absurd hm hne
    | some ip =>
      simp [WasmTreeDataset.deleteMatches, hm,
        WasmTreeDataset.ensureHasModifiableForest]
  · simp [WasmTreeDataset.deleteMatches, heq]
  · simp [WasmTreeDataset.addAll, hl, WasmTreeDataset.ensureHasForest_identifierList]
  · simp [WasmTreeDataset.addAll]

/-- Witness for C4 as amended, at a concrete facade holding a cached sequence
and concrete operation arguments; the interner knows none of the quad's
terms, so the delete and deleteMatches branches fall on the no-op side, and
the satisfiable sides are exercised with a known term. -/
theorem cached_sequence_frame_witness :
    (WasmTreeDataset.has [mkTermIdMap] ⟨0, none, some [0, 0, 0, 0]⟩
        ("s", "p", "o", "g")).2.identifierList = some [0, 0, 0, 0] ∧
    (WasmTreeDataset.add [mkTermIdMap] ⟨0, none, some [0, 0, 0, 0]⟩
        ("s", "p", "o", "g")).2.identifierList = none ∧
    (WasmTreeDataset.delete [mkTermIdMap] ⟨0, none, some [0, 0, 0, 0]⟩
        ("s", "p", "o", "g")).2 = ⟨0, none, some [0, 0, 0, 0]⟩ ∧
    WasmTreeDataset.deleteMatches [mkTermIdMap] ⟨0, none, some [0, 0, 0, 0]⟩
        (some "z", none, none, none) = ⟨0, none, some [0, 0, 0, 0]⟩ ∧
    (WasmTreeDataset.addAll [mkTermIdMap] ⟨0, none, some [0, 0, 0, 0]⟩
        [("s", "p", "o", "g")]).2.identifierList = some [0, 0, 0, 0] :=
  have h := cached_sequence_frame [mkTermIdMap] ⟨0, none, some [0, 0, 0, 0]⟩
    [0, 0, 0, 0] rfl ("s", "p", "o", "g") (some "z", none, none, none)
    [("s", "p", "o", "g")]
  ⟨h.1, h.2.2.2.2.1.1, h.2.2.2.2.2.2.1 (by decide), h.2.2.2.2.2.2.2.2.1 (by decide),
    h.2.2.2.2.2.2.2.2.2.1⟩

/-- Counterexample to C4 as stated: three mutating operations that do not
drop the cached identifier sequence.  addAll inserts a quad through the
forest yet leaves the cached sequence in place (it goes stale), and delete
and deleteMatches with an unknown term or pattern return without touching
the facade. -/
theorem cached_sequence_frame_counterexample :
    (WasmTreeDataset.addAll [mkTermIdMap] ⟨0, none, some [0, 0, 0, 0]⟩
        [("s", "p", "o", "g")]).2.identifierList = some [0, 0, 0, 0] ∧
    (WasmTreeDataset.delete [mkTermIdMap] ⟨0, none, some [0, 0, 0, 0]⟩
        ("s", "p", "o", "g")).2.identifierList = some [0, 0, 0, 0] ∧
    WasmTreeDataset.deleteMatches [mkTermIdMap] ⟨0, none, some [0, 0, 0, 0]⟩
        (some "z", none, none, none) =
      (⟨0, none, some [0, 0, 0, 0]⟩ : WasmTreeDataset) := by
  decide

/-! Claim C3. -/

/-- Membership in the deduplication accumulator run. -/
theorem mem_dedupFirstAux (x : Nat) (l : List Nat) :
    ∀ seen : List Nat, x ∈ dedupFirstAux seen l ↔ x ∈ l ∧ x ∉ seen := by
  induction l with
  | nil => intro seen; simp [dedupFirstAux]
  | cons y ys ih =>
    intro seen
    by_cases hy : y ∈ seen
    · rw [show dedupFirstAux seen (y :: ys) = dedupFirstAux seen ys from by
        simp [dedupFirstAux, hy]]
      rw [ih seen]
      constructor
      · rintro ⟨hx, hs⟩
        exact ⟨List.mem_cons_of_mem y hx, hs⟩
      · rintro ⟨hx, hs⟩
        rcases List.mem_cons.1 hx with rfl | hx
        · exact absurd hy hs
        · exact ⟨hx, hs⟩
    · rw [show dedupFirstAux seen (y :: ys) = y :: dedupFirstAux (y :: seen) ys from by
        simp [dedupFirstAux, hy]]
      simp only [List.mem_cons, ih (y :: seen)]
      constructor
      · rintro (rfl | ⟨hx, hs⟩)
        · exact ⟨Or.inl rfl, hy⟩
        · exact ⟨Or.inr hx, fun hmem => hs (Or.inr hmem)⟩
      · rintro ⟨rfl | hx, hs⟩
        · exact Or.inl rfl
        · by_cases hxy : x = y
          · exact Or.inl hxy
          · exact Or.inr ⟨hx, by simp [hxy, hs]⟩

/-- The deduplication keeps exactly the elements of the list. -/
theorem mem_dedupFirst (x : Nat) (l : List Nat) : x ∈ dedupFirst l ↔ x ∈ l := by
  simp [dedupFirst, mem_dedupFirstAux]

/-- The deduplication run yields a list without duplicates. -/
theorem nodup_dedupFirstAux (l : List Nat) :
    ∀ seen : List Nat, (dedupFirstAux seen l).Nodup := by
  induction l with
  | nil => intro seen; simp [dedupFirstAux]
  | cons y ys ih =>
    intro seen
    by_cases hy : y ∈ seen
    · simpa [dedupFirstAux, hy] using ih seen
    · rw [show dedupFirstAux seen (y :: ys) = y :: dedupFirstAux (y :: seen) ys from by
        simp [dedupFirstAux, hy]]
      refine List.nodup_cons.2 ⟨fun hmem => ?_, ih (y :: seen)⟩
      exact ((mem_dedupFirstAux y ys (y :: seen)).1 hmem).2 (List.mem_cons_self y seen)

/-- The deduplication yields a list without duplicates. -/
theorem nodup_dedupFirst (l : List Nat) : (dedupFirst l).Nodup :=
  nodup_dedupFirstAux l []

namespace TermIdMap

/-- An identifier outside the processed list keeps the term, if any, it had
in the accumulator. -/
theorem dupStep_getTerm_not_mem (source : TermIdMap) (ids : List Nat) :
    ∀ (self : TermIdMap) (i : Nat), i ∉ ids →
      (dupStep source self ids).getTerm i = self.getTerm i := by
  induction ids with
  | nil => intro self i _; rfl
  | cons j rest ih =>
    intro self i h
    have hij : i ≠ j := fun he => h (he ▸ List.mem_cons_self j rest)
    have hrest : i ∉ rest := fun hr => h (List.mem_cons_of_mem j hr)
    unfold dupStep
    cases hj : jsGet j source.identifiersToTerms with
    | some t =>
      rw [ih _ i hrest]
      simp [getTerm, jsGet, Ne.symm hij]
    | none =>
      rw [ih _ i hrest]
      rfl

/-- An identifier of the processed list, under no duplicate processing, ends
bound to its source term. -/
theorem dupStep_getTerm_mem (source : TermIdMap) (ids : List Nat) :
    ∀ (self : TermIdMap) (i : Nat), i ∈ ids → ids.Nodup →
      (source.getTerm i).isSome = true →
      (dupStep source self ids).getTerm i = source.getTerm i := by
  induction ids with
  | nil => intro self i hi _ _; cases hi
  | cons j rest ih =>
    intro self i hi hnd hsome
    rcases List.mem_cons.1 hi with rfl | hmem
    · have hrest : i ∉ rest := (List.nodup_cons.1 hnd).1
      obtain ⟨t, ht⟩ := Option.isSome_iff_exists.1 hsome
      have ht2 : jsGet i source.identifiersToTerms = some t := ht
      unfold dupStep
      rw [ht2]
      rw [dupStep_getTerm_not_mem source rest _ i hrest]
      simp [getTerm, jsGet, ht2]
    · have hnd2 := (List.nodup_cons.1 hnd).2
      unfold dupStep
      cases hj : jsGet j source.identifiersToTerms <;> exact ih _ i hmem hnd2 hsome

/-- When no identifier of the processed list carries the term in the source,
the term lookup is unchanged by the processing. -/
theorem dupStep_findIdentifier_no_hit (source : TermIdMap) (ids : List Nat) :
    ∀ (self : TermIdMap) (t : Term), (∀ j ∈ ids, source.getTerm j ≠ some t) →
      (dupStep source self ids).findIdentifier t = self.findIdentifier t := by
  induction ids with
  | nil => intro self t _; rfl
  | cons j rest ih =>
    intro self t h
    unfold dupStep
    cases hj : jsGet j source.identifiersToTerms with
    | some u =>
      have hut : u ≠ t := by
        intro he
        exact h j (List.mem_cons_self j rest) (by rw [getTerm, hj, he])
      rw [ih _ t (fun k hk => h k (List.mem_cons_of_mem j hk))]
      simp [findIdentifier, jsGet, hut]
    | none =>
      rw [ih _ t (fun k hk => h k (List.mem_cons_of_mem j hk))]
      rfl

/-- An identifier of the processed list whose source term no other processed
identifier carries ends up found by term lookup. -/
theorem dupStep_findIdentifier_mem (source : TermIdMap) (ids : List Nat) :
    ∀ (self : TermIdMap) (i : Nat) (t : Term), i ∈ ids → ids.Nodup →
      source.getTerm i = some t →
      (∀ j ∈ ids, j ≠ i → source.getTerm j ≠ some t) →
      (dupStep source self ids).findIdentifier t = some i := by
  induction ids with
  | nil => intro self i t hi _ _ _; cases hi
  | cons j rest ih =>
    intro self i t hi hnd ht hinj
    rcases List.mem_cons.1 hi with rfl | hmem
    · have hrest : i ∉ rest := (List.nodup_cons.1 hnd).1
      unfold dupStep
      rw [show jsGet i source.identifiersToTerms = some t from ht]
      rw [dupStep_findIdentifier_no_hit source rest _ t
        (fun k hk => hinj k (List.mem_cons_of_mem i hk) (fun he => hrest (he ▸ hk)))]
      simp [findIdentifier, jsGet]
    · have hnd2 := (List.nodup_cons.1 hnd).2
      unfold dupStep
      cases hj : jsGet j source.identifiersToTerms <;>
        exact ih _ i t hmem hnd2 ht
          (fun k hk hki => hinj k (List.mem_cons_of_mem j hk) hki)

/-- duplicate reads the identifier array of the underlying processing run. -/
theorem duplicate_getTerm (source : TermIdMap) (l : List Nat) (i : Nat) :
    (duplicate source l).getTerm i =
      (dupStep source mkTermIdMap (dedupFirst l)).getTerm i := rfl

/-- duplicate reads the term map of the underlying processing run. -/
theorem duplicate_findIdentifier (source : TermIdMap) (l : List Nat) (t : Term) :
    (duplicate source l).findIdentifier t =
      (dupStep source mkTermIdMap (dedupFirst l)).findIdentifier t := rfl

/-- The fresh constructor map binds only identifier 0, to the default graph. -/
theorem mkTermIdMap_getTerm (i : Nat) :
    mkTermIdMap.getTerm i = if 0 = i then some defaultGraphConcise else none := by
  simp [mkTermIdMap, getTerm, jsGet]

end TermIdMap

/-- C3 as amended: clone_subset (TermIdMap.duplicate) builds an interner
containing exactly the identifiers occurring in the list together with the
default-graph identifier 0 (always present in the fresh constructor map);
every identifier of the list keeps the term it had in the source in both
directions, identifier 0 is bound to the default graph, and the
next-identifier counter equals the source's.  The hypotheses are the interner
well-formedness on the cloned identifiers: each is bound in the source, and
distinct identifiers carry distinct terms. -/
theorem clone_subset_preserves (src : TermIdMap) (L : List Nat)
    (hdom : ∀ i ∈ L, (src.getTerm i).isSome = true)
    (hinj : ∀ i ∈ L, ∀ j ∈ L, src.getTerm i = src.getTerm j → i = j)
    (h0 : src.getTerm 0 = some defaultGraphConcise) :
    (∀ i : Nat, ((TermIdMap.duplicate src L).getTerm i).isSome = true ↔
      (i = 0 ∨ i ∈ L)) ∧
    (∀ i ∈ L, (TermIdMap.duplicate src L).getTerm i = src.getTerm i) ∧
    (∀ i ∈ L, ∀ t, src.getTerm i = some t →
      (TermIdMap.duplicate src L).findIdentifier t = some i) ∧
    (TermIdMap.duplicate src L).getTerm 0 = some defaultGraphConcise ∧
    (TermIdMap.duplicate src L).nextIdentifier = src.nextIdentifier := by
  have hnd := nodup_dedupFirst L
  have hmm : ∀ x, x ∈ dedupFirst L ↔ x ∈ L := fun x => mem_dedupFirst x L
  have hpart2 : ∀ i ∈ L, (TermIdMap.duplicate src L).getTerm i = src.getTerm i := by
    intro i hi
    rw [TermIdMap.duplicate_getTerm]
    exact TermIdMap.dupStep_getTerm_mem src (dedupFirst L) mkTermIdMap i
      ((hmm i).2 hi) hnd (hdom i hi)
  have hpart4 : (TermIdMap.duplicate src L).getTerm 0 = some defaultGraphConcise := by
    by_cases h0L : 0 ∈ L
    · rw [hpart2 0 h0L]
      exact h0
    · rw [TermIdMap.duplicate_getTerm,
        TermIdMap.dupStep_getTerm_not_mem src (dedupFirst L) mkTermIdMap 0
          (fun hmem => h0L ((hmm 0).1 hmem))]
      simp [TermIdMap.mkTermIdMap_getTerm]
  refine ⟨?_, hpart2, ?_, hpart4, rfl⟩
  · intro i
    constructor
    · intro hs
      by_cases hiL : i ∈ L
      · exact Or.inr hiL
      · left
        by_contra hi0
        have hnone : (TermIdMap.duplicate src L).getTerm i = none := by
          rw [TermIdMap.duplicate_getTerm,
            TermIdMap.dupStep_getTerm_not_mem src (dedupFirst L) mkTermIdMap i
              (fun hmem => hiL ((hmm i).1 hmem)),
            TermIdMap.mkTermIdMap_getTerm,
            if_neg (fun he : (0 : Nat) = i => hi0 he.symm)]
        rw [hnone] at hs
        simp at hs
    · rintro (rfl | hiL)
      · rw [hpart4]
        rfl
      · rw [hpart2 i hiL]
        exact hdom i hiL
  · intro i hi t ht
    rw [TermIdMap.duplicate_findIdentifier]
    refine TermIdMap.dupStep_findIdentifier_mem src (dedupFirst L) mkTermIdMap i t
      ((hmm i).2 hi) hnd ht ?_
    intro j hj hji hjt
    exact hji (hinj j ((hmm j).1 hj) i hi (by rw [hjt, ht]))

/-- Witness for C3 as amended: a source interner holding one extra term at
identifier 1, cloned on the identifier list containing exactly 1. -/
theorem clone_subset_preserves_witness :
    (∀ i : Nat,
      ((TermIdMap.duplicate (mkTermIdMap.findOrBuildIdentifier "a").2 [1]).getTerm
        i).isSome = true ↔ (i = 0 ∨ i ∈ [1])) ∧
    (∀ i ∈ [1],
      (TermIdMap.duplicate (mkTermIdMap.findOrBuildIdentifier "a").2 [1]).getTerm i =
        (mkTermIdMap.findOrBuildIdentifier "a").2.getTerm i) ∧
    (∀ i ∈ [1], ∀ t, (mkTermIdMap.findOrBuildIdentifier "a").2.getTerm i = some t →
      (TermIdMap.duplicate (mkTermIdMap.findOrBuildIdentifier "a").2 [1]).findIdentifier
        t = some i) ∧
    (TermIdMap.duplicate (mkTermIdMap.findOrBuildIdentifier "a").2 [1]).getTerm 0 =
      some defaultGraphConcise ∧
    (TermIdMap.duplicate (mkTermIdMap.findOrBuildIdentifier "a").2 [1]).nextIdentifier =
      (mkTermIdMap.findOrBuildIdentifier "a").2.nextIdentifier :=
  clone_subset_preserves (mkTermIdMap.findOrBuildIdentifier "a").2 [1]
    (by decide) (by decide) (by decide)

/-- Counterexample to C3 as stated: the clone of an interner on the
identifier list holding exactly the identifier 1 also contains identifier 0
(the default-graph binding of the fresh constructor map), so the clone does
not contain exactly the identifiers occurring in the list. -/
theorem clone_subset_counterexample :
    ((TermIdMap.duplicate (mkTermIdMap.findOrBuildIdentifier "a").2 [1]).getTerm
      0).isSome = true ∧ (0 : Nat) ∉ [1] := by
  decide
